import Mathlib

/-!
Shallow embedding of `IsisAndOsiris.py` (class `Game`): board representation,
tile-supply derivation, player registration, move application, scoring and the
tournament scheduler.  Python integers are modelled as `Int`; Python's floor
division `//` and modulo `%` are `Int.fdiv` / `Int.fmod`; Python `dict`s
(insertion-ordered) are association lists; `numpy` object arrays are lists of
lists of `Cell`; a raised exception is an `Except.error`.
-/

/-- Python floor division `a // b`. -/
def pyDiv (a b : Int) : Int := Int.fdiv a b

/-- Python modulo `a % b` (sign of the divisor, i.e. floor-convention). -/
def pyMod (a b : Int) : Int := Int.fmod a b

/-- Exceptions raised by the source, tagged by their cause.
`Game.play_move` raises `IndexError` for an off-board position and `ValueError`
for the occupied-cell / missing-stone / unknown-tile / missing-tile cases;
`list.index` raises `ValueError` when the element is absent; a dict lookup with
an absent key raises `KeyError`; calling a function with the wrong number of
positional arguments raises `TypeError`. -/
inductive PyErr where
  | outOfRange          -- IndexError from indexing the numpy board
  | cellOccupied        -- ValueError: position already taken
  | insufficientStones  -- ValueError: no stones left
  | unknownTileValue    -- ValueError: item not a key of the Tiles dict
  | insufficientTiles   -- ValueError: no tiles of that value left
  | keyError            -- KeyError: cur_player not a key of self.players
  | playerNotFound      -- ValueError from players.index(self.cur_player)
  | valueError          -- other explicit `raise ValueError` sites
  | typeError           -- call with wrong number of positional arguments
  deriving DecidableEq, Repr

/-- One cell of the numpy board: `None`, a `Player` object (a stone), or an
`int` (a placed tile).  Player objects are identified by an opaque `Nat`. -/
inductive Cell where
  | empty
  | stone (p : Nat)
  | tile (v : Int)
  deriving DecidableEq, Repr

/-- First-match lookup in an association list (Python `d[k]` / `k in d`). -/
def assocGet {α β : Type} [DecidableEq α] : List (α × β) → α → Option β
  | [], _ => none
  | (a, b) :: t, k => if a = k then some b else assocGet t k

/-- Python `d[k] = v`: update the value in place if the key exists (keeping
its position in insertion order), else append the new key. -/
def assocSet {α β : Type} [DecidableEq α] : List (α × β) → α → β → List (α × β)
  | [], k, v => [(k, v)]
  | (a, b) :: t, k, v => if a = k then (a, v) :: t else (a, b) :: assocSet t k v

/-- Python `d[k] += v` on an integer-valued dict: add `v` to the value of the
first (in a dict: only) entry with key `k`, keeping its position (no-op if the
key is absent; in the source the key is always present when this is
reached). -/
def assocAdd {α : Type} [DecidableEq α] : List (α × Int) → α → Int →
    List (α × Int)
  | [], _, _ => []
  | (a, b) :: t, k, v => if a = k then (a, b + v) :: t else (a, b) :: assocAdd t k v

/-- Python `list.index` as an option (raises ValueError when absent). -/
def listIndex {α : Type} [DecidableEq α] : List α → α → Option Nat
  | [], _ => none
  | a :: t, k => if a = k then some 0 else (listIndex t k).map (· + 1)

/-- Python `sum(d.values())` for an `int`-valued dict. -/
def tilesSum (ts : List (Int × Int)) : Int := (ts.map Prod.snd).sum

/-- Per-player record `{'Stones': int, 'Tiles': dict}`. -/
structure PlayerRec where
  stones : Int
  tiles : List (Int × Int)
  deriving DecidableEq, Repr

/-- The mutable attributes of a `Game` instance. -/
structure GameState where
  board : List (List Cell)
  boardlen : Nat
  curPlayer : Nat
  players : List (Nat × PlayerRec)
  tiles : List (Int × Int)
  deriving DecidableEq, Repr

/-- The class constant `Game.MAX_TILE_VALUE`. -/
def MAX_TILE_VALUE : Nat := 4

/-- One iteration of the `reset_game` loop
`for i, t in enumerate(range(1, MAX_TILE_VALUE + 1))`:
`tiles_left = num_items - sum(self.tiles.values())`,
`self.tiles[t] = tiles_left // (2 * (MAX_TILE_VALUE - i))`,
`self.tiles[-t] = self.tiles[t]` (both keys are fresh, so the dict grows by
the two entries `(t, c), (-t, c)` at the end, in insertion order). -/
def resetStep (numItems : Int) (acc : List (Int × Int)) (it : Nat × Int) :
    List (Int × Int) :=
  let tilesLeft := numItems - tilesSum acc
  let c := pyDiv tilesLeft (2 * ((MAX_TILE_VALUE : Int) - (it.1 : Int)))
  acc ++ [(it.2, c), (-it.2, c)]

/-- The pairs `(i, t)` yielded by `enumerate(range(1, MAX_TILE_VALUE + 1))`,
with `t = i + 1`. -/
def enumTiles : List (Nat × Int) :=
  (List.range MAX_TILE_VALUE).map (fun i => (i, (i : Int) + 1))

/-- The tile dict built by `Game.reset_game`:
`num_items = self.boardlen ** 2 // 4`, then the loop above starting from the
empty dict. -/
def resetTiles (boardlen : Nat) : List (Int × Int) :=
  let numItems := pyDiv ((boardlen : Int) ^ 2) 4
  enumTiles.foldl (resetStep numItems) []

/-- Method `Game.reset_game` (takes no arguments besides `self`): recomputes
`self.tiles` from the board size; nothing else changes. -/
def reset_game (st : GameState) : GameState :=
  { st with tiles := resetTiles st.boardlen }

/-- A Python call `self.reset_game(...)` with `argc` positional arguments
beyond `self`.  The source's `def reset_game(self)` accepts none, so any call
that passes arguments raises `TypeError` before the body runs. -/
def call_reset_game (st : GameState) (argc : Nat) : Except PyErr GameState :=
  if argc = 0 then .ok (reset_game st) else .error .typeError

/-- Method `Game.add_players(player1, player2)`.  A `none` argument models Python
`None` (which, like any object without a `play` attribute, fails the
`hasattr(p, 'play')` check); `some id` models a play-capable `Player`
instance.  Note that the `len(self.tiles) == 0` branch calls
`self.reset_game(self.boardlen)` with one argument, which `reset_game`
does not accept. -/
def add_players (st : GameState) (player1 player2 : Option Nat) :
    Except PyErr GameState := do
  let st ← if st.tiles.length = 0 then call_reset_game st 1 else pure st
  match player1, player2 with
  | some p1, some p2 =>
    let st := { st with curPlayer := p1 }
    let rec1 : PlayerRec :=
      { stones := pyDiv ((st.boardlen : Int) ^ 2) 4, tiles := st.tiles }
    let st := { st with players := assocSet st.players p1 rec1 }
    let st := { st with players := assocSet st.players p2 rec1 }
    pure st
  | _, _ => .error .valueError

/-- Constructor `Game.__init__(boardlen, player1, player2)`: the `boardlen % 4 != 0`
check, then `numpy.full((boardlen, boardlen), None)` (which raises
`ValueError` for a negative dimension), then `reset_game()` and
`add_players(player1, player2)`.  The fresh `Player()` initially stored in
`cur_player` is modelled by the placeholder id `0`; it is overwritten by
`add_players` whenever construction succeeds. -/
def Game.init (boardlen : Int) (player1 player2 : Option Nat) :
    Except PyErr GameState := do
  if pyMod boardlen 4 ≠ 0 then .error .valueError
  else if boardlen < 0 then .error .valueError
  else
    let n := boardlen.toNat
    let st : GameState :=
      { board := List.replicate n (List.replicate n Cell.empty),
        boardlen := n, curPlayer := 0, players := [], tiles := [] }
    add_players (reset_game st) player1 player2

/-- Basic numpy integer indexing along one axis of length `len`: indices in
`[0, len)` are used as-is, indices in `[-len, -1]` count from the end
(`i + len`), anything else raises `IndexError` (`none`). -/
def npIdx (len : Nat) (i : Int) : Option Nat :=
  if 0 ≤ i then (if i < (len : Int) then some i.toNat else none)
  else (if -(len : Int) ≤ i then some (i + (len : Int)).toNat else none)

/-- Read `self.board[position]` (numpy 2-d integer indexing): resolve both
axes with `npIdx`, then read the cell.  `none` models `IndexError`. -/
def boardGet (st : GameState) (pos : Int × Int) : Option Cell :=
  match npIdx st.boardlen pos.1, npIdx st.boardlen pos.2 with
  | some x, some y => (st.board.get? x).bind (fun row => row.get? y)
  | _, _ => none

/-- Write `self.board[x, y] = c` at already-resolved axis indices. -/
def boardSet (b : List (List Cell)) (x y : Nat) (c : Cell) : List (List Cell) :=
  match b.get? x with
  | some row => b.set x (row.set y c)
  | none => b

/-- Python `list(self.players.keys())`. -/
def playerKeys (st : GameState) : List Nat := st.players.map Prod.fst

/-- The round-robin advance closing `play_move`:
`players = list(self.players.keys())`,
`self.cur_player = players[(players.index(self.cur_player) + 1) % len(players)]`
(`listIndex` found the index, so the wrapped position is in range and `getD`'s
default is never used). -/
def advancePlayer (st : GameState) (idx : Nat) : GameState :=
  { st with curPlayer :=
      (playerKeys st).getD ((idx + 1) % (playerKeys st).length) st.curPlayer }

/-- The two mutating assignments of `play_move` at resolved indices `(x, y)`:
the board write and the decrement of the matching counter of
`self.players[self.cur_player]` (whose record is `pr`). -/
def applyItem (st : GameState) (pr : PlayerRec) (x y : Nat) (item : Int) :
    GameState :=
  if item = 0 then
    { st with
      board := boardSet st.board x y (Cell.stone st.curPlayer),
      players := assocSet st.players st.curPlayer
        { pr with stones := pr.stones - 1 } }
  else
    { st with
      board := boardSet st.board x y (Cell.tile item),
      players := assocSet st.players st.curPlayer
        { pr with tiles :=
            assocSet pr.tiles item ((assocGet pr.tiles item).getD 0 - 1) } }

/-- Method `Game.play_move(position, item)`, translated statement by statement.
The result is the pair (exception raised or `()`, the state of the instance
when the call returns): a `raise` before any assignment leaves the input
state, so the second component on an early error is the input state itself. -/
def play_move (st : GameState) (pos : Int × Int) (item : Int) :
    Except PyErr Unit × GameState :=
  -- try: cur_value = self.board[position] / except IndexError
  match npIdx st.boardlen pos.1, npIdx st.boardlen pos.2 with
  | some x, some y =>
    match (st.board.get? x).bind (fun row => row.get? y) with
    | none => (.error .outOfRange, st)
    | some curValue =>
      -- if cur_value is not None: raise ValueError (already taken)
      if curValue ≠ Cell.empty then (.error .cellOccupied, st)
      else
        -- the remaining checks read self.players[self.cur_player]
        match assocGet st.players st.curPlayer with
        | none => (.error .keyError, st)
        | some pr =>
          if item = 0 ∧ pr.stones ≤ 0 then (.error .insufficientStones, st)
          else if item ≠ 0 ∧ assocGet pr.tiles item = none then
            (.error .unknownTileValue, st)
          else if item ≠ 0 ∧ (assocGet pr.tiles item).getD 0 ≤ 0 then
            (.error .insufficientTiles, st)
          else
            let st1 := applyItem st pr x y item
            match listIndex (playerKeys st1) st1.curPlayer with
            | none => (.error .playerNotFound, st1)
            | some idx => (.ok (), advancePlayer st1 idx)
  | _, _ => (.error .outOfRange, st)

/-- Read the cell at row `x`, column `y`; out-of-list reads (which do not
occur for the in-range indices the source uses) default to empty. -/
def cellAt (st : GameState) (x y : Nat) : Cell :=
  ((st.board.get? x).bind (fun row => row.get? y)).getD Cell.empty

/-- Python `isinstance(c, int)`: true exactly for a placed tile. -/
def isTile : Cell → Bool
  | Cell.tile _ => true
  | _ => false

/-- The numeric value of a tile cell (only read under `isTile`). -/
def tileVal : Cell → Int
  | Cell.tile v => v
  | _ => 0

/-- The four guarded `scores[value] += self.board[...]` statements of
`players_score` for the stone at `(x, y)`, summed. -/
def cellScore (st : GameState) (x y : Nat) : Int :=
  (if x > 0 ∧ isTile (cellAt st (x - 1) y) then tileVal (cellAt st (x - 1) y)
   else 0) +
  (if x < st.boardlen - 1 ∧ isTile (cellAt st (x + 1) y) then
     tileVal (cellAt st (x + 1) y) else 0) +
  (if y > 0 ∧ isTile (cellAt st x (y - 1)) then tileVal (cellAt st x (y - 1))
   else 0) +
  (if y < st.boardlen - 1 ∧ isTile (cellAt st x (y + 1)) then
     tileVal (cellAt st x (y + 1)) else 0)

/-- The body of the `players_score` loop at one cell `(x, y)`:
`if value in self.players:` (only a stone of a registered player passes),
then the four neighbour additions. -/
def scoreVisit (st : GameState) (acc : List (Nat × Int)) (x y : Nat) :
    List (Nat × Int) :=
  match cellAt st x y with
  | Cell.stone p =>
    if p ∈ playerKeys st then assocAdd acc p (cellScore st x y) else acc
  | _ => acc

/-- Method `Game.players_score()`: `scores = dict.fromkeys(self.players, 0)`, then
the row-major `numpy.ndenumerate` sweep over the board.  The function only
reads the state. -/
def players_score (st : GameState) : List (Nat × Int) :=
  let init := st.players.map (fun e => (e.1, (0 : Int)))
  (List.range st.boardlen).foldl
    (fun acc x =>
      (List.range st.boardlen).foldl (fun acc y => scoreVisit st acc x y) acc)
    init

/-- Python `itertools.permutations(players, 2)`: all ordered pairs of entries at
distinct positions, in lexicographic index order. -/
def perms2 {α : Type} (l : List α) : List (α × α) :=
  (List.range l.length).foldr
    (fun i acc =>
      ((List.range l.length).filterMap
        (fun j =>
          if i ≠ j then
            match l.get? i, l.get? j with
            | some a, some b => some (a, b)
            | _, _ => none
          else none)) ++ acc)
    []

/-- Method `Game.play_game(boardlen, player1, player2)`.  After the
`if not player1 or not player2 and len(self.players) < 2` guard, both branches
call `self.reset_game` with positional arguments (`boardlen, *self.players`
resp. `boardlen, player1, player2`), which `def reset_game(self)` does not
accept, so the call raises `TypeError` there and the game loop below it is
unreachable.  That loop drives the external strategies; it is abstracted as
`playRest`, which is never invoked because `call_reset_game` fails first. -/
def play_game (playRest : GameState → Except PyErr (List (Nat × Int)))
    (st : GameState) (boardlen : Int) (player1 player2 : Option Nat) :
    Except PyErr (List (Nat × Int)) := do
  let _ := boardlen
  if player1 = none ∨ (player2 = none ∧ st.players.length < 2) then
    .error .valueError
  else
    let st' ←
      if player1 = none ∧ player2 = none then
        call_reset_game st (1 + st.players.length)
      else
        call_reset_game st 3
    playRest st'

/-- One tournament bookkeeping step of `play_tournament` after the game
between `p1` and `p2` returned the score dict `gs`:
look up `game_scores[p1]` and `game_scores[p2]` (a missing key is a
`KeyError`), then `+1` each on a draw, else `+2` to the strict winner. -/
def tallyGame (ts : List (Nat × Int)) (p1 p2 : Nat)
    (gs : List (Nat × Int)) : Except PyErr (List (Nat × Int)) :=
  match assocGet gs p1, assocGet gs p2 with
  | some s1, some s2 =>
    if s1 = s2 then .ok (assocAdd (assocAdd ts p1 1) p2 1)
    else if s1 > s2 then .ok (assocAdd ts p1 2)
    else .ok (assocAdd ts p2 2)
  | _, _ => .error .keyError

/-- Method `Game.play_tournament(players, boardlen)`:
`t_scores = {p: 0 for p in players}`, then one `play_game` per element of
`itertools.permutations(players, 2)` with the scores tallied after each game.
An exception from any game propagates out of the loop unchanged. -/
def play_tournament (playRest : GameState → Except PyErr (List (Nat × Int)))
    (st : GameState) (players : List Nat) (boardlen : Int) :
    Except PyErr (List (Nat × Int)) := do
  let t0 := players.map (fun p => (p, (0 : Int)))
  (perms2 players).foldlM
    (fun ts p => do
      let gs ← play_game playRest st boardlen (some p.1) (some p.2)
      tallyGame ts p.1 p.2 gs)
    t0

/-! Claim-side definitions, written from the specification's own wording, to be
compared with the embedded source functions. -/

/-- One step of the tile-supply derivation as the specification words it:
compute `remaining = total − sum(already_assigned_counts)` (positive and
negative counts together) and assign
`remaining // (2 × (max_tile_value − magnitude + 1))` to both the positive and
the negative tile of this magnitude, appending them to the mapping. -/
def deriveStep (total : Int) (acc : List (Int × Int)) (magnitude : Int) :
    List (Int × Int) :=
  let remaining := total - tilesSum acc
  let c := pyDiv remaining (2 * ((MAX_TILE_VALUE : Int) - magnitude + 1))
  acc ++ [(magnitude, c), (-magnitude, c)]

/-- The tile-supply derivation as the specification words it: iterate the
magnitudes `1` to `max_tile_value` in increasing order over a total of
`N^2 / 4`, performing `deriveStep` at each magnitude, with no redistribution
of the integer-division leftover afterwards. -/
def specDerive (boardlen : Nat) : List (Int × Int) :=
  ([1, 2, 3, 4] : List Int).foldl
    (deriveStep (pyDiv ((boardlen : Int) ^ 2) 4)) []

/-- The orthogonally adjacent positions of `(x, y)` that lie inside an
`n × n` grid (neighbours outside the grid omitted). -/
def inGridNeighbors (n x y : Nat) : List (Nat × Nat) :=
  (if 0 < x then [(x - 1, y)] else []) ++
  (if x + 1 < n then [(x + 1, y)] else []) ++
  (if 0 < y then [(x, y - 1)] else []) ++
  (if y + 1 < n then [(x, y + 1)] else [])

/-- The sum of the signed values of the in-grid orthogonal neighbours of
`(x, y)` that hold tile values (stone and empty neighbours contribute
nothing). -/
def adjacentTileSum (st : GameState) (x y : Nat) : Int :=
  ((inGridNeighbors st.boardlen x y).map
    (fun q => if isTile (cellAt st q.1 q.2) then tileVal (cellAt st q.1 q.2)
              else 0)).sum

/-- The score of player `p` as the specification words it: the sum, over every
cell holding a stone of `p`, of the signed values of the orthogonally adjacent
in-grid cells that hold tile values. -/
def specScore (st : GameState) (p : Nat) : Int :=
  ((List.range st.boardlen).map (fun x =>
    ((List.range st.boardlen).map (fun y =>
      if cellAt st x y = Cell.stone p then adjacentTileSum st x y
      else 0)).sum)).sum

/-- The contribution that a visit of cell `(x, y)` in the `players_score`
sweep adds to the entry of player `q`. -/
def visitContrib (st : GameState) (q : Nat) (x y : Nat) : Int :=
  if cellAt st x y = Cell.stone q ∧ q ∈ playerKeys st then cellScore st x y
  else 0

/-! Concrete states used by witnesses and counterexamples. -/

/-- The tile dict derived for board size 4. -/
def tiles4 : List (Int × Int) :=
  [(1, 0), (-1, 0), (2, 0), (-2, 0), (3, 1), (-3, 1), (4, 1), (-4, 1)]

/-- The state `Game(4, p, q)` produces for two players with ids 0 and 1. -/
def g4 : GameState :=
  { board := List.replicate 4 (List.replicate 4 Cell.empty),
    boardlen := 4, curPlayer := 0,
    players := [(0, { stones := 4, tiles := tiles4 }),
                (1, { stones := 4, tiles := tiles4 })],
    tiles := tiles4 }

/-- The tile dict derived for board size 8. -/
def tiles8 : List (Int × Int) :=
  [(1, 2), (-1, 2), (2, 2), (-2, 2), (3, 2), (-3, 2), (4, 2), (-4, 2)]

/-- The state `Game(8, p, q)` produces for two players with ids 0 and 1. -/
def g8 : GameState :=
  { board := List.replicate 8 (List.replicate 8 Cell.empty),
    boardlen := 8, curPlayer := 0,
    players := [(0, { stones := 16, tiles := tiles8 }),
                (1, { stones := 16, tiles := tiles8 })],
    tiles := tiles8 }

/-- A mid-game 4x4 state: player 0 has a stone at `(1, 1)` whose orthogonal
neighbours are exactly the tiles `+3` (at `(0, 1)`) and `-2` (at `(1, 0)`),
and a stone at `(3, 3)` with no adjacent tiles. -/
def gScore : GameState :=
  { board :=
      [[Cell.empty, Cell.tile 3, Cell.empty, Cell.empty],
       [Cell.tile (-2), Cell.stone 0, Cell.empty, Cell.empty],
       [Cell.empty, Cell.empty, Cell.empty, Cell.empty],
       [Cell.empty, Cell.empty, Cell.empty, Cell.stone 0]],
    boardlen := 4, curPlayer := 0,
    players := [(0, { stones := 2, tiles := tiles4 }),
                (1, { stones := 4, tiles := tiles4 })],
    tiles := tiles4 }

/-- The tile dict derived for board size 0 (all counts zero). -/
def tiles0 : List (Int × Int) :=
  [(1, 0), (-1, 0), (2, 0), (-2, 0), (3, 0), (-3, 0), (4, 0), (-4, 0)]

/-- The player record `add_players` installs on an `n × n` board:
`{'Stones': n ** 2 // 4, 'Tiles': dict(self.tiles)}`. -/
def initRec (n : Nat) : PlayerRec :=
  { stones := pyDiv ((n : Int) ^ 2) 4, tiles := resetTiles n }

/-- The closed form of the state a successful
`Game.init n (some pa) (some pb)` returns. -/
def initState (n pa pb : Nat) : GameState :=
  { board := List.replicate n (List.replicate n Cell.empty),
    boardlen := n, curPlayer := pa,
    players := assocSet (assocSet [] pa (initRec n)) pb (initRec n),
    tiles := resetTiles n }

/-- The cell content a successful move writes: the current player's identity
for a stone (`item = 0`), else the signed tile value. -/
def placedCell (cur : Nat) (item : Int) : Cell :=
  if item = 0 then Cell.stone cur else Cell.tile item

/-- The update a successful move applies to the mover's record: exactly the
matching counter (`Stones`, or `Tiles[item]`) decreases by exactly 1. -/
def decrementItem (pr : PlayerRec) (item : Int) : PlayerRec :=
  if item = 0 then { pr with stones := pr.stones - 1 }
  else { pr with tiles :=
          assocSet pr.tiles item ((assocGet pr.tiles item).getD 0 - 1) }

/-! Theorems. -/

/-- C4: for every board size, the tile-supply derivation of `reset_game`
iterates magnitudes 1 to `MAX_TILE_VALUE` in increasing order, at each step
computes the remaining total as `N^2/4` minus the sum of all counts already
assigned (positive and negative together), assigns
`remaining // (2 * (MAX_TILE_VALUE - magnitude + 1))` copies to both the
positive and the negative tile of that magnitude, and performs no
redistribution of the integer-division leftover: the embedded source
derivation coincides with the specification's derivation. -/
theorem tile_derivation_matches_spec (n : Nat) : resetTiles n = specDerive n := by
  simp only [resetTiles, specDerive, enumTiles, MAX_TILE_VALUE,
    List.range_succ, List.range_zero, List.map_append, List.map_cons,
    List.map_nil, List.foldl, resetStep, deriveStep, List.nil_append,
    List.append_assoc, List.cons_append]
  norm_num

/-- C3 (counterexample): for board size 4 the derived supply gives the tiles
`+4` and `-4` one copy each, not the two copies the claim states (after
magnitude 3 receives one copy each, only `4 - 2 = 2` items remain, so
magnitude 4 gets `2 // 2 = 1`). -/
theorem tile_supply_size4_magnitude4_not_two :
    assocGet (resetTiles 4) 4 ≠ some 2 ∧ assocGet (resetTiles 4) (-4) ≠ some 2 ∧
    assocGet (resetTiles 4) 4 = some 1 := by decide

/-- C3 (amended): for board size 4 (`num_items = 4`) the derived tile supply
assigns 0 copies to magnitude 1, 0 copies to magnitude 2, 1 copy each to
tiles `+3` and `-3`, and 1 copy each to tiles `+4` and `-4`. -/
theorem tile_supply_size4_exact :
    resetTiles 4 =
      [(1, 0), (-1, 0), (2, 0), (-2, 0), (3, 1), (-3, 1), (4, 1), (-4, 1)] := by
  decide

/-- C1 (code bug): `play_tournament` over two strategies never reaches the
point-update logic: every `play_game` call invokes
`self.reset_game(boardlen, player1, player2)`, but `reset_game` accepts no
arguments, so the first scheduled game raises `TypeError` — no game is played
and no cumulative point is awarded, whatever the game loop (`playRest`) would
have done. -/
theorem tournament_first_game_raises_typeError
    (playRest : GameState → Except PyErr (List (Nat × Int)))
    (st : GameState) (pa pb : Nat) (b : Int) :
    play_tournament playRest st [pa, pb] b = .error .typeError := rfl

/-- C7 (code bug): constructing a game without supplying players fails:
`Game.__init__` unconditionally calls `add_players(None, None)` and `None`
has no `play` attribute, so `Game(24)` — exactly what the repository's own
`test_Game_init` does — raises `ValueError` instead of yielding a playable
not-yet-started machine. -/
theorem construction_without_players_raises :
    Game.init 24 none none = .error .valueError := rfl

/-- C2 (counterexample): for board size 4 each registered player starts with
4 stones and tiles summing to 4 copies, a total allocation of 8 items,
which is not `N^2/4 = 4` (it exceeds it). -/
theorem initial_allocation_exceeds_quarter_board :
    Game.init 4 (some 0) (some 1) = .ok g4 ∧
    g4.players.map (fun e => e.2.stones + tilesSum e.2.tiles) = [8, 8] ∧
    pyDiv ((4 : Int) ^ 2) 4 = 4 ∧ (8 : Int) ≠ 4 := by
  refine ⟨rfl, by decide, by decide, by decide⟩

/-- C6 (counterexample): `Game(0, p, q)` is accepted, not rejected: `0 % 4`
is `0`, so the size check passes and construction returns a `0 × 0` board,
although the claim requires every size that is not a *positive* multiple of
4 — size 0 included — to fail with `ValueError`. -/
theorem size_zero_construction_succeeds :
    Game.init 0 (some 0) (some 1) =
      .ok { board := [], boardlen := 0, curPlayer := 0,
            players := [(0, { stones := 0, tiles := tiles0 }),
                        (1, { stones := 0, tiles := tiles0 })],
            tiles := tiles0 } := rfl

/-- C5 (counterexample): a move at position `(-1, 0)` on a fresh 4x4 game is
not rejected with `IndexError`: numpy's negative indexing maps it to the cell
`(3, 0)`, the move succeeds and the state is mutated. -/
theorem negative_position_wraps :
    (play_move g4 (-1, 0) 0).1 = Except.ok () ∧
    cellAt (play_move g4 (-1, 0) 0).2 3 0 = Cell.stone 0 ∧
    (play_move g4 (-1, 0) 0).2.players ≠ g4.players := by
  refine ⟨rfl, rfl, by decide⟩

/-- Helper: an axis index left of `-len` or at/after `len` raises
`IndexError`. -/
theorem npIdx_eq_none (len : Nat) (i : Int)
    (h : i < -(len : Int) ∨ (len : Int) ≤ i) : npIdx len i = none := by
  unfold npIdx
  rcases h with h | h
  · have h0 : ¬ (0 : Int) ≤ i := by omega
    have h1 : ¬ (-(len : Int) ≤ i) := by omega
    simp [h0, h1]
  · have h0 : (0 : Int) ≤ i := by omega
    have h1 : ¬ (i < (len : Int)) := by omega
    simp [h0, h1]

/-- Helper: a negative axis index at or after `-len` counts from the end. -/
theorem npIdx_neg (len : Nat) (i : Int) (h1 : -(len : Int) ≤ i) (h2 : i < 0) :
    npIdx len i = some (i + (len : Int)).toNat := by
  unfold npIdx
  have h0 : ¬ (0 : Int) ≤ i := by omega
  simp [h0, h1]

/-- C5 (amended): `play_move` fails with `IndexError`, leaving the state
unchanged, exactly when a coordinate falls outside `[-size, size)`; a
coordinate in `[-size, -1]` is numpy negative indexing and resolves to
`coordinate + size`, so such positions are silently mapped to another cell of
the grid instead of being rejected. -/
theorem play_move_out_of_range (st : GameState) (pos : Int × Int) (item : Int) :
    ((pos.1 < -(st.boardlen : Int) ∨ (st.boardlen : Int) ≤ pos.1 ∨
      pos.2 < -(st.boardlen : Int) ∨ (st.boardlen : Int) ≤ pos.2) →
      play_move st pos item = (.error .outOfRange, st))
    ∧ (∀ i : Int, -(st.boardlen : Int) ≤ i → i < 0 →
        npIdx st.boardlen i = some (i + (st.boardlen : Int)).toNat) := by
  constructor
  · intro h
    have hxy : npIdx st.boardlen pos.1 = none ∨
        npIdx st.boardlen pos.2 = none := by
      rcases h with h | h | h | h
      · exact .inl (npIdx_eq_none _ _ (.inl h))
      · exact .inl (npIdx_eq_none _ _ (.inr h))
      · exact .inr (npIdx_eq_none _ _ (.inl h))
      · exact .inr (npIdx_eq_none _ _ (.inr h))
    unfold play_move
    rcases hxy with hx | hy
    · rw [hx]
    · rcases he : npIdx st.boardlen pos.1 with _ | x
      · rfl
      · rw [hy]
  · intro i h1 h2
    exact npIdx_neg _ _ h1 h2

/-- C5 witness: a fresh 4x4 game rejects the position `(4, 0)` with
`IndexError` and no state change, and the in-range negative index `-1`
resolves to axis position `3`. -/
theorem play_move_out_of_range_witness :
    play_move g4 (4, 0) 0 = (.error .outOfRange, g4) ∧
    npIdx g4.boardlen (-1) = some ((-1 : Int) + (g4.boardlen : Int)).toNat :=
  ⟨(play_move_out_of_range g4 (4, 0) 0).1 (by decide),
   (play_move_out_of_range g4 (4, 0) 0).2 (-1) (by decide) (by decide)⟩

/-- Helper: the derived tile dict always has its eight keys
`1, -1, 2, -2, 3, -3, 4, -4`. -/
theorem resetTiles_length (n : Nat) : (resetTiles n).length = 8 := by
  simp [resetTiles, enumTiles, MAX_TILE_VALUE, List.range_succ, resetStep]

/-- Helper: the closed form of a successful construction with two
play-capable players. -/
theorem Game_init_ok_form (b : Int) (pa pb : Nat) (hm : pyMod b 4 = 0)
    (hb : 0 ≤ b) :
    Game.init b (some pa) (some pb) = .ok (initState b.toNat pa pb) := by
  have hm' : ¬ (pyMod b 4 ≠ 0) := by simp [hm]
  have hb' : ¬ (b < 0) := by omega
  simp only [Game.init, hm', hb', if_false]
  simp [add_players, reset_game, resetTiles_length, bind, Except.bind,
    pure, Except.pure, initState, initRec]

/-- C6 (amended): with two play-capable players supplied, construction fails
with `ValueError` for every size whose Python remainder mod 4 is nonzero and
for every negative size (numpy rejects negative dimensions) — which covers
all negative multiples of 4 — while every nonnegative multiple of 4,
size 0 included, yields a size-by-size board with every cell empty. -/
theorem construction_characterization (b : Int) (pa pb : Nat) :
    (pyMod b 4 ≠ 0 ∨ b < 0 →
      Game.init b (some pa) (some pb) = .error .valueError)
    ∧ (pyMod b 4 = 0 → 0 ≤ b →
        ∃ st, Game.init b (some pa) (some pb) = .ok st ∧
          st.boardlen = b.toNat ∧
          st.board = List.replicate b.toNat
            (List.replicate b.toNat Cell.empty)) := by
  constructor
  · intro h
    by_cases hm : pyMod b 4 ≠ 0
    · simp [Game.init, hm]
    · have hb : b < 0 := by tauto
      simp [Game.init, hm, hb]
  · intro hm hb
    exact ⟨initState b.toNat pa pb, Game_init_ok_form b pa pb hm hb, rfl, rfl⟩

/-- C6 witness: size 5 is rejected with `ValueError`; size 8 is accepted with
an 8x8 all-empty board. -/
theorem construction_characterization_witness :
    Game.init 5 (some 0) (some 1) = .error .valueError ∧
    (∃ st, Game.init 8 (some 0) (some 1) = .ok st ∧
      st.boardlen = (8 : Int).toNat ∧
      st.board = List.replicate (8 : Int).toNat
        (List.replicate (8 : Int).toNat Cell.empty)) :=
  ⟨(construction_characterization 5 0 1).1 (by decide),
   (construction_characterization 8 0 1).2 (by decide) (by decide)⟩

/-- Helper: `sum` distributes over dict concatenation. -/
theorem tilesSum_append (a b : List (Int × Int)) :
    tilesSum (a ++ b) = tilesSum a + tilesSum b := by
  simp [tilesSum]

/-- Helper: one derivation step never pushes the running total of assigned
copies above `num_items`, since it assigns `2 * (remaining // (2 * k))
≤ remaining` copies. -/
theorem resetStep_sum_le (numItems : Int) (acc : List (Int × Int))
    (it : Nat × Int) (hit : it.1 < MAX_TILE_VALUE)
    (h : tilesSum acc ≤ numItems) :
    tilesSum (resetStep numItems acc it) ≤ numItems := by
  simp only [resetStep, tilesSum_append]
  have hi : (it.1 : Int) ≤ 3 := by
    have := hit
    simp [MAX_TILE_VALUE] at this
    omega
  set d : Int := 2 * ((MAX_TILE_VALUE : Int) - (it.1 : Int)) with hd
  have hd2 : 2 ≤ d := by
    simp only [hd, MAX_TILE_VALUE]
    push_cast
    omega
  set left : Int := numItems - tilesSum acc with hleft
  have hl0 : 0 ≤ left := by omega
  have hdv : pyDiv left d = left / d := by
    rw [pyDiv, Int.fdiv_eq_ediv _ (by omega)]
  have hc2 : 2 * pyDiv left d ≤ left := by
    rw [hdv]
    have h1 : d * (left / d) ≤ left := by
      have h4 := Int.ediv_add_emod left d
      have h5 : 0 ≤ left % d := Int.emod_nonneg _ (by omega)
      omega
    nlinarith [Int.ediv_nonneg hl0 (by omega : (0 : Int) ≤ d)]
  have hsum2 : tilesSum [(it.2, pyDiv left d), (-it.2, pyDiv left d)]
      = 2 * pyDiv left d := by
    simp [tilesSum]; ring
  rw [hsum2]
  omega

/-- Helper: the step bound carried through the whole derivation loop. -/
theorem foldl_resetStep_le (numItems : Int) :
    ∀ (l : List (Nat × Int)) (acc : List (Int × Int)),
      (∀ it ∈ l, it.1 < MAX_TILE_VALUE) → tilesSum acc ≤ numItems →
      tilesSum (l.foldl (resetStep numItems) acc) ≤ numItems
  | [], acc, _, h => by simpa using h
  | it :: l, acc, hl, h => by
    simp only [List.foldl_cons]
    exact foldl_resetStep_le numItems l _
      (fun x hx => hl x (by simp [hx]))
      (resetStep_sum_le numItems acc it (hl it (by simp)) h)

/-- Helper: the derived tile counts sum to at most `N^2 / 4`. -/
theorem tilesSum_resetTiles_le (n : Nat) :
    tilesSum (resetTiles n) ≤ pyDiv ((n : Int) ^ 2) 4 := by
  unfold resetTiles
  apply foldl_resetStep_le
  · intro it hit
    simp [enumTiles, List.mem_map, List.mem_range] at hit
    obtain ⟨i, hi, rfl⟩ := hit
    simpa using hi
  · have : (0 : Int) ≤ pyDiv ((n : Int) ^ 2) 4 := by
      rw [pyDiv, Int.fdiv_eq_ediv _ (by norm_num)]
      exact Int.ediv_nonneg (by positivity) (by norm_num)
    simpa [tilesSum] using this

/-- C2 (amended): for every valid board size and every player registered at
game start, that player's initial stone count equals `N^2/4`, the sum of the
player's initial tile counts is at most `N^2/4`, and the stone count plus the
tile counts therefore never exceeds `N^2/2` (the code hands out `N^2/4`
stones and the derived tiles on top of them, not inside that quota). -/
theorem initial_allocation_bounds (b : Int) (pa pb : Nat) (st : GameState)
    (h : Game.init b (some pa) (some pb) = .ok st) :
    ∀ e ∈ st.players,
      e.2.stones = pyDiv (b ^ 2) 4 ∧
      tilesSum e.2.tiles ≤ pyDiv (b ^ 2) 4 ∧
      e.2.stones + tilesSum e.2.tiles ≤ pyDiv (b ^ 2) 2 := by
  have hm0 : pyMod b 4 = 0 := by
    by_contra hm
    simp [Game.init, hm] at h
  have hb0 : 0 ≤ b := by
    by_contra hb
    push_neg at hb
    simp [Game.init, hm0, hb] at h
  rw [Game_init_ok_form b pa pb hm0 hb0] at h
  have hst : st = initState b.toNat pa pb := by
    cases h; rfl
  subst hst
  intro e he
  have hbn : ((b.toNat : Nat) : Int) = b := Int.toNat_of_nonneg hb0
  have he2 : e.2 = initRec b.toNat := by
    by_cases hpp : pa = pb
    · subst hpp
      simp [initState, assocSet] at he
      rw [he]
    · simp [initState, assocSet, hpp] at he
      rcases he with he | he <;> rw [he]
  rw [he2]
  have hq := tilesSum_resetTiles_le b.toNat
  rw [hbn] at hq
  have hd4 : pyDiv (b ^ 2) 4 = b ^ 2 / 4 := by
    rw [pyDiv, Int.fdiv_eq_ediv _ (by norm_num)]
  have hd2 : pyDiv (b ^ 2) 2 = b ^ 2 / 2 := by
    rw [pyDiv, Int.fdiv_eq_ediv _ (by norm_num)]
  have hx0 : (0 : Int) ≤ b ^ 2 := by positivity
  refine ⟨?_, ?_, ?_⟩
  · simp [initRec, hbn]
  · simpa [initRec] using hq
  · simp only [initRec]
    rw [hbn]
    omega

/-- C2 witness: on the default 8x8 board, player 0's record holds 16 stones
(`64 // 4`), tiles summing to at most 16, and a total of at most 32. -/
theorem initial_allocation_bounds_witness :
    ((0 : Nat), PlayerRec.mk 16 tiles8).2.stones = pyDiv ((8 : Int) ^ 2) 4 ∧
    tilesSum ((0 : Nat), PlayerRec.mk 16 tiles8).2.tiles ≤
      pyDiv ((8 : Int) ^ 2) 4 ∧
    ((0 : Nat), PlayerRec.mk 16 tiles8).2.stones +
      tilesSum ((0 : Nat), PlayerRec.mk 16 tiles8).2.tiles ≤
      pyDiv ((8 : Int) ^ 2) 2 :=
  initial_allocation_bounds 8 0 1 g8 (by rfl)
    ((0 : Nat), PlayerRec.mk 16 tiles8) (by decide)

/-- C8: whenever `play_move` raises one of its move-rejection errors
(out-of-range position, occupied cell, insufficient stones, unknown tile
value, insufficient tiles), it does so before performing any mutation: the
returned state — board, every player's counters, and `cur_player` — is
exactly the input state. -/
theorem failed_move_leaves_state_unchanged (st : GameState) (pos : Int × Int)
    (item : Int) (e : PyErr)
    (he : (play_move st pos item).1 = .error e)
    (hk : e = .outOfRange ∨ e = .cellOccupied ∨ e = .insufficientStones ∨
          e = .unknownTileValue ∨ e = .insufficientTiles) :
    (play_move st pos item).2 = st := by
  revert he
  unfold play_move
  split
  · split
    · intro _; rfl
    · split
      · intro _; rfl
      · split
        · intro _; rfl
        · split
          · intro _; rfl
          · split
            · intro _; rfl
            · split
              · intro _; rfl
              · dsimp only
                split
                · intro h
                  simp at h
                  subst h
                  rcases hk with h | h | h | h | h <;> simp at h
                · intro h
                  simp at h
  · intro _; rfl

/-- C8 witness: playing on the occupied cell `(0, 1)` of the mid-game state
`gScore` is rejected with the cell-occupied error and leaves the state
exactly as it was. -/
theorem failed_move_leaves_state_unchanged_witness :
    (play_move gScore (0, 1) 0).2 = gScore :=
  failed_move_leaves_state_unchanged gScore (0, 1) 0 .cellOccupied
    (by rfl) (by decide)

/-- Helper: overwriting the value of an existing key keeps the key list (and
its order) unchanged. -/
theorem assocSet_keys {α β : Type} [DecidableEq α] (l : List (α × β)) (k : α)
    (v : β) (h : assocGet l k ≠ none) :
    (assocSet l k v).map Prod.fst = l.map Prod.fst := by
  induction l with
  | nil => simp [assocGet] at h
  | cons hd tl ih =>
    obtain ⟨a, b⟩ := hd
    by_cases hk : a = k
    · simp [assocSet, hk]
    · simp only [assocSet, if_neg hk, List.map_cons]
      rw [ih (by simpa [assocGet, hk] using h)]

/-- Helper: the two mutating assignments of `play_move`, written as one
record update. -/
theorem applyItem_eq (st : GameState) (pr : PlayerRec) (x y : Nat)
    (item : Int) :
    applyItem st pr x y item =
      { st with
        board := boardSet st.board x y (placedCell st.curPlayer item),
        players := assocSet st.players st.curPlayer
          (decrementItem pr item) } := by
  unfold applyItem placedCell decrementItem
  split <;> rename_i h <;> simp [h]

/-- C9: on every successful `play_move` the returned state differs from the
input state in exactly three places: the resolved target cell now holds the
current player's stone (for `item = 0`) or the signed tile value, the current
player's matching counter is decremented by exactly 1 (`decrementItem`), and
`cur_player` advances to the next entry of the registration order, wrapping
cyclically; `boardlen` and the shared tile template are untouched. -/
theorem successful_move_effects (st : GameState) (pos : Int × Int) (item : Int)
    (h : (play_move st pos item).1 = .ok ()) :
    ∃ x y pr idx,
      npIdx st.boardlen pos.1 = some x ∧ npIdx st.boardlen pos.2 = some y ∧
      assocGet st.players st.curPlayer = some pr ∧
      listIndex (playerKeys st) st.curPlayer = some idx ∧
      (play_move st pos item).2 =
        { st with
          board := boardSet st.board x y (placedCell st.curPlayer item),
          players := assocSet st.players st.curPlayer (decrementItem pr item),
          curPlayer := (playerKeys st).getD
            ((idx + 1) % (playerKeys st).length) st.curPlayer } := by
  revert h
  unfold play_move
  split
  · split
    · intro h; simp at h
    · split
      · intro h; simp at h
      · split
        · intro h; simp at h
        · split
          · intro h; simp at h
          · split
            · intro h; simp at h
            · split
              · intro h; simp at h
              · dsimp only
                split
                · intro h; simp at h
                · rename_i o1 o2 px py hx hy ocell cv hcell hcv oplayer pr
                    hpr hchk1 hchk2 hchk3 oidx idx hidx
                  intro _
                  have hkeys : playerKeys (applyItem st pr px py item) =
                      playerKeys st := by
                    show ((applyItem st pr px py item).players.map Prod.fst) = _
                    rw [applyItem_eq]
                    exact assocSet_keys st.players st.curPlayer _
                      (by rw [hpr]; exact fun hcc => by cases hcc)
                  have hcur : (applyItem st pr px py item).curPlayer =
                      st.curPlayer := by
                    rw [applyItem_eq]
                  refine ⟨px, py, pr, idx, hx, hy, hpr, ?_, ?_⟩
                  · rw [hkeys, hcur] at hidx
                    exact hidx
                  · show advancePlayer (applyItem st pr px py item) idx = _
                    unfold advancePlayer
                    rw [applyItem_eq] at hkeys hcur ⊢
                    rw [hkeys, hcur]
  · intro h; simp at h

/-- C9 witness: the first stone of a fresh 4x4 game, played at `(0, 0)`,
writes the stone of player 0, decrements player 0's stones to 3, and passes
the turn to player 1. -/
theorem successful_move_effects_witness :
    ∃ x y pr idx,
      npIdx g4.boardlen ((0 : Int), (0 : Int)).1 = some x ∧
      npIdx g4.boardlen ((0 : Int), (0 : Int)).2 = some y ∧
      assocGet g4.players g4.curPlayer = some pr ∧
      listIndex (playerKeys g4) g4.curPlayer = some idx ∧
      (play_move g4 ((0 : Int), (0 : Int)) 0).2 =
        { g4 with
          board := boardSet g4.board x y (placedCell g4.curPlayer 0),
          players := assocSet g4.players g4.curPlayer (decrementItem pr 0),
          curPlayer := (playerKeys g4).getD
            ((idx + 1) % (playerKeys g4).length) g4.curPlayer } :=
  successful_move_effects g4 (0, 0) 0 (by rfl)

/-- Helper: reading a key after `d[k] += v`. -/
theorem assocGet_assocAdd {α : Type} [DecidableEq α] (l : List (α × Int))
    (k q : α) (v : Int) :
    assocGet (assocAdd l k v) q =
      if q = k then (assocGet l q).map (· + v) else assocGet l q := by
  induction l with
  | nil => by_cases h : q = k <;> simp [assocAdd, assocGet, h]
  | cons hd tl ih =>
    obtain ⟨a, b⟩ := hd
    by_cases ha : a = k
    · subst ha
      by_cases h2 : a = q
      · subst h2
        simp [assocAdd, assocGet]
      · have hqa : ¬ q = a := fun hh => h2 hh.symm
        simp [assocAdd, assocGet, h2, hqa]
    · by_cases h2 : a = q
      · subst h2
        simp [assocAdd, assocGet, ha]
      · have hqa : ¬ q = a := fun hh => h2 hh.symm
        simp [assocAdd, assocGet, ha, h2, hqa, ih]

/-- Helper: one cell visit of the scoring sweep adds exactly `visitContrib`
to each player's entry. -/
theorem assocGet_scoreVisit (st : GameState) (acc : List (Nat × Int))
    (x y : Nat) (q : Nat) :
    assocGet (scoreVisit st acc x y) q =
      (assocGet acc q).map (· + visitContrib st q x y) := by
  unfold scoreVisit visitContrib
  cases hc : cellAt st x y with
  | empty => cases assocGet acc q <;> simp
  | tile v => cases assocGet acc q <;> simp
  | stone p =>
    by_cases hin : p ∈ playerKeys st
    · by_cases hpq : p = q
      · subst hpq
        simp [hin, assocGet_assocAdd]
      · have hne : ¬ (Cell.stone p = Cell.stone q) := by
          simp [hpq]
        have hqp : ¬ (q = p) := fun hh => hpq hh.symm
        simp [hin, assocGet_assocAdd, hqp, hne]
    · have hz : (if Cell.stone p = Cell.stone q ∧ q ∈ playerKeys st then
          cellScore st x y else 0) = 0 := by
        by_cases hpq : p = q
        · subst hpq
          simp [hin]
        · simp [hpq]
      rw [hz]
      simp [hin]

/-- Helper: one row of the scoring sweep adds the row's contributions. -/
theorem assocGet_scoreRow (st : GameState) (q : Nat) (x : Nat) :
    ∀ (ys : List Nat) (acc : List (Nat × Int)),
      assocGet (ys.foldl (fun a y => scoreVisit st a x y) acc) q =
        (assocGet acc q).map
          (· + (ys.map (fun y => visitContrib st q x y)).sum)
  | [], acc => by
    simp only [List.foldl_nil, List.map_nil, List.sum_nil]
    cases assocGet acc q <;> simp
  | y :: ys, acc => by
    simp only [List.foldl_cons, List.map_cons, List.sum_cons]
    rw [assocGet_scoreRow st q x ys (scoreVisit st acc x y),
      assocGet_scoreVisit]
    cases assocGet acc q <;> simp [add_assoc]

/-- Helper: the whole scoring sweep adds the grid's contributions. -/
theorem assocGet_scoreFold (st : GameState) (q : Nat) :
    ∀ (xs : List Nat) (acc : List (Nat × Int)),
      assocGet (xs.foldl (fun acc x =>
          (List.range st.boardlen).foldl
            (fun acc y => scoreVisit st acc x y) acc) acc) q =
        (assocGet acc q).map
          (· + (xs.map (fun x => ((List.range st.boardlen).map
              (fun y => visitContrib st q x y)).sum)).sum)
  | [], acc => by
    simp only [List.foldl_nil, List.map_nil, List.sum_nil]
    cases assocGet acc q <;> simp
  | x :: xs, acc => by
    simp only [List.foldl_cons, List.map_cons, List.sum_cons]
    rw [assocGet_scoreFold st q xs, assocGet_scoreRow]
    cases assocGet acc q <;> simp [add_assoc]

/-- Helper: `dict.fromkeys(self.players, 0)` maps every registered player
to 0. -/
theorem assocGet_fromkeys (l : List (Nat × PlayerRec)) (q : Nat)
    (h : q ∈ l.map Prod.fst) :
    assocGet (l.map (fun e => (e.1, (0 : Int)))) q = some 0 := by
  induction l with
  | nil => simp at h
  | cons hd tl ih =>
    by_cases hq : hd.1 = q
    · simp [assocGet, hq]
    · have hq2 : ¬ (q = hd.1) := fun hh => hq hh.symm
      simp only [List.map_cons] at h ⊢
      rw [List.mem_cons] at h
      rcases h with h | h
      · exact absurd h hq2
      · simp [assocGet, hq, ih h]

/-- Helper: the four guarded neighbour additions of the source equal the
specification's sum over in-grid orthogonal tile neighbours. -/
theorem cellScore_eq_adjacentTileSum (st : GameState) (x y : Nat) :
    cellScore st x y = adjacentTileSum st x y := by
  unfold cellScore adjacentTileSum inGridNeighbors
  have h2 : (x < st.boardlen - 1) ↔ (x + 1 < st.boardlen) := by omega
  have h4 : (y < st.boardlen - 1) ↔ (y + 1 < st.boardlen) := by omega
  by_cases c1 : 0 < x <;> by_cases c2 : x + 1 < st.boardlen <;>
    by_cases c3 : 0 < y <;> by_cases c4 : y + 1 < st.boardlen <;>
      simp [c1, c2, c3, c4, h2, h4, gt_iff_lt] <;> ring

/-- C10: for every game state (mid-game included) the scoring function maps
each registered player `p` to the sum, over every cell holding a stone of
`p`, of the signed values of the orthogonally adjacent in-grid cells that
hold tile values — stone and empty neighbours contribute nothing and
off-grid neighbours are omitted.  The function is a pure read of the state
(its embedding returns only the score dict, no state). -/
theorem players_score_adjacency (st : GameState) (p : Nat)
    (hp : p ∈ playerKeys st) :
    assocGet (players_score st) p = some (specScore st p) := by
  unfold players_score
  rw [assocGet_scoreFold, assocGet_fromkeys st.players p hp]
  have hv : ∀ x y : Nat, visitContrib st p x y =
      (if cellAt st x y = Cell.stone p then adjacentTileSum st x y
       else 0) := by
    intro x y
    rw [visitContrib, cellScore_eq_adjacentTileSum]
    simp [hp]
  simp [specScore, hv]

/-- C10 witness: in the mid-game state `gScore`, player 0's stone at `(1, 1)`
is adjacent to exactly the tiles `+3` and `-2` and the stone at `(3, 3)` has
no adjacent tiles, so player 0's score is exactly `1`. -/
theorem players_score_adjacency_witness :
    assocGet (players_score gScore) 0 = some (specScore gScore 0) ∧
    specScore gScore 0 = 1 :=
  ⟨players_score_adjacency gScore 0 (by decide), by decide⟩
